import Mathlib

/-!
Verification of the dynamic-block / meta-argument expansion engine of the
tflint repository (package `terraform/tfhcl`).

The definitions below are a shallow embedding of `expand_spec.go`
(`decodeDynamicSpec`, `expandDynamicSpec.newBlock`, `decodeMetaArgSpec`)
together with the fragment of the externally supplied value system
(go-cty values, hcl expressions, bodies and diagnostics) that those
functions consume.  The expander itself (`expand_body.go`) is not part of
the available sources; where a claim depends on it, a definition is
modelled from the specification and marked as such in its doc comment.

Modelling conventions:
  * cty numbers are modelled as integers (`Int`); the claims under study
    only exercise integer arithmetic.
  * source ranges are opaque identifiers (`Nat`);
  * marks are lists of strings attached to each value node; `Unmark`
    removes the top-level marks, as the embedded code only inspects
    top-level marks;
  * diagnostics keep severity, summary, detail and subject range; the
    `Expression`/`EvalContext` fields of hcl diagnostics carry no
    information used by the claims and are omitted.
-/

set_option maxHeartbeats 1000000

namespace Tfhcl

/-- Source ranges, modelled as opaque identifiers. -/
abbrev SrcRange := Nat

/-- The fragment of go-cty types consumed by the embedded code.  Tuple and
object element types are never consumed by it, so they are not recorded. -/
inductive CtyType where
  | string
  | number
  | bool
  | dynamicPseudo
  | list (elem : CtyType)
  | map (elem : CtyType)
  | tuple
  | object
deriving DecidableEq, Repr

/-- `cty.Type.FriendlyName`, restricted to the modelled types. -/
def CtyType.friendlyName : CtyType → String
  | .string => "string"
  | .number => "number"
  | .bool => "bool"
  | .dynamicPseudo => "dynamic"
  | .list t => "list of " ++ t.friendlyName
  | .map t => "map of " ++ t.friendlyName
  | .tuple => "tuple"
  | .object => "object"

/-- Whether a type supports element iteration (`cty.Value.CanIterateElements`
is purely type-directed in go-cty). -/
def CtyType.canIterate : CtyType → Bool
  | .list _ => true
  | .map _ => true
  | .tuple => true
  | .object => true
  | _ => false

/-- Whether a (non-collection) type converts to `cty.String`. -/
def CtyType.convertibleToString : CtyType → Bool
  | .string => true
  | .number => true
  | .bool => true
  | .dynamicPseudo => true
  | _ => false

/-- go-cty values: null, unknown, or known payloads, each node carrying its
marks.  Numbers are modelled as integers. -/
inductive Value where
  | nullV (ty : CtyType) (marks : List String)
  | unknown (ty : CtyType) (marks : List String)
  | str (s : String) (marks : List String)
  | num (n : Int) (marks : List String)
  | boolV (b : Bool) (marks : List String)
  | listV (elemTy : CtyType) (elems : List Value) (marks : List String)
  | mapV (elemTy : CtyType) (entries : List (String × Value)) (marks : List String)
  | tupleV (elems : List Value) (marks : List String)
  | objectV (entries : List (String × Value)) (marks : List String)

/-- `cty.DynamicVal`: the unknown value of the dynamic pseudo-type. -/
def dynamicVal : Value := Value.unknown .dynamicPseudo []

/-- The marks carried by a value (top level). -/
def Value.marks : Value → List String
  | .nullV _ m => m
  | .unknown _ m => m
  | .str _ m => m
  | .num _ m => m
  | .boolV _ m => m
  | .listV _ _ m => m
  | .mapV _ _ m => m
  | .tupleV _ m => m
  | .objectV _ m => m

/-- Replace the top-level marks of a value. -/
def Value.setMarks : Value → List String → Value
  | .nullV t _, m => .nullV t m
  | .unknown t _, m => .unknown t m
  | .str s _, m => .str s m
  | .num n _, m => .num n m
  | .boolV b _, m => .boolV b m
  | .listV t es _, m => .listV t es m
  | .mapV t es _, m => .mapV t es m
  | .tupleV es _, m => .tupleV es m
  | .objectV es _, m => .objectV es m

/-- `cty.Value.Unmark`: the value stripped of its marks, paired with them. -/
def Value.unmark (v : Value) : Value × List String :=
  (v.setMarks [], v.marks)

/-- `cty.Value.Mark`/mark application: add marks to a value. -/
def Value.withMarks (v : Value) (m : List String) : Value :=
  v.setMarks (v.marks ++ m)

/-- `cty.Value.IsMarked`. -/
def Value.isMarked (v : Value) : Bool :=
  !v.marks.isEmpty

/-- `cty.Value.IsNull`. -/
def Value.isNull : Value → Bool
  | .nullV _ _ => true
  | _ => false

/-- `cty.Value.IsKnown` (shallow: a known collection containing unknown
elements is itself known, as in go-cty). -/
def Value.isKnown : Value → Bool
  | .unknown _ _ => false
  | _ => true

/-- Whether `v.Type()` is `cty.DynamicPseudoType`.  Known values always have
a concrete type, so only null and unknown values can be dynamically typed. -/
def Value.isDynamicType : Value → Bool
  | .nullV t _ => t == .dynamicPseudo
  | .unknown t _ => t == .dynamicPseudo
  | _ => false

/-- `cty.Value.CanIterateElements`: type-directed, so null or unknown values
of collection type also report true. -/
def Value.canIterateElements : Value → Bool
  | .nullV t _ => t.canIterate
  | .unknown t _ => t.canIterate
  | .listV _ _ _ => true
  | .mapV _ _ _ => true
  | .tupleV _ _ => true
  | .objectV _ _ => true
  | _ => false

/-- `v.Type().FriendlyName()`. -/
def Value.friendlyTypeName : Value → String
  | .nullV t _ => t.friendlyName
  | .unknown t _ => t.friendlyName
  | .str _ _ => "string"
  | .num _ _ => "number"
  | .boolV _ _ => "bool"
  | .listV t _ _ => "list of " ++ t.friendlyName
  | .mapV t _ _ => "map of " ++ t.friendlyName
  | .tupleV _ _ => "tuple"
  | .objectV _ _ => "object"

/-- `cty.Value.GoString`, abbreviated for collections: only its use inside
one diagnostic detail string consumes it, and no claim inspects that text
for collection values. -/
def Value.goString : Value → String
  | .nullV t _ => "cty.NullVal(cty." ++ t.friendlyName ++ ")"
  | .unknown t _ => "cty.UnknownVal(cty." ++ t.friendlyName ++ ")"
  | .str s _ => "cty.StringVal(\"" ++ s ++ "\")"
  | .num n _ => "cty.NumberIntVal(" ++ toString n ++ ")"
  | .boolV b _ => if b then "cty.True" else "cty.False"
  | .listV _ _ _ => "cty.ListVal(...)"
  | .mapV _ _ _ => "cty.MapVal(...)"
  | .tupleV _ _ => "cty.TupleVal(...)"
  | .objectV _ _ => "cty.ObjectVal(...)"

/-- `cty.Value.AsString`, defined on known non-null strings (other cases are
unreachable in the embedded code and map to the empty string). -/
def Value.asString : Value → String
  | .str s _ => s
  | _ => ""

/-- `cty.Value.ElementIterator`, in go-cty's natural enumeration order:
lists and tuples yield `(index, element)` with zero-based integer keys, maps
and objects yield `(key, element)`. Only called on known, unmarked
collections by the embedded code. -/
def Value.iterateElements : Value → List (Value × Value)
  | .listV _ es _ => es.enum.map (fun p => (Value.num (Int.ofNat p.1) [], p.2))
  | .tupleV es _ => es.enum.map (fun p => (Value.num (Int.ofNat p.1) [], p.2))
  | .mapV _ es _ => es.map (fun p => (Value.str p.1 [], p.2))
  | .objectV es _ => es.map (fun p => (Value.str p.1 [], p.2))
  | _ => []

/-- `convert.Convert(v, cty.String)`: strings pass through, numbers and
bools render, null/unknown values of string-convertible type become
null/unknown strings, collections fail with the go-cty mismatch message.
Marks are preserved. -/
def convertToString (v : Value) : Except String Value :=
  match v with
  | .str s m => .ok (.str s m)
  | .num n m => .ok (.str (toString n) m)
  | .boolV b m => .ok (.str (if b then "true" else "false") m)
  | .nullV t m =>
    if t.convertibleToString then .ok (.nullV .string m) else .error "string required"
  | .unknown t m =>
    if t.convertibleToString then .ok (.unknown .string m) else .error "string required"
  | _ => .error "string required"

/-- `convert.Convert(v, cty.Number)`: numbers pass through, numeric strings
parse, everything else fails with the go-cty mismatch message.  Marks are
preserved. -/
def convertToNumber (v : Value) : Except String Value :=
  match v with
  | .num n m => .ok (.num n m)
  | .str s m =>
    match s.toInt? with
    | some n => .ok (.num n m)
    | none => .error "a number is required"
  | .nullV t m =>
    if t == .number || t == .dynamicPseudo then .ok (.nullV .number m)
    else .error "a number is required"
  | .unknown t m =>
    if t == .number || t == .dynamicPseudo then .ok (.unknown .number m)
    else .error "a number is required"
  | _ => .error "a number is required"

/-- hcl diagnostic severities. -/
inductive Severity where
  | error
  | warning
deriving DecidableEq, Repr

/-- An hcl diagnostic: severity, summary, detail and subject range. -/
structure Diagnostic where
  severity : Severity
  summary : String
  detail : String
  subject : Option SrcRange
deriving DecidableEq, Repr

/-- `hcl.Diagnostics`. -/
abbrev Diagnostics := List Diagnostic

/-- `hcl.Diagnostics.HasErrors`. -/
def Diagnostics.hasErrors (ds : Diagnostics) : Bool :=
  ds.any (fun d => d.severity == Severity.error)

/-- An evaluation scope (`hcl.EvalContext`), flattened to an association
list looked up front to back, so layering a child scope is consing new
bindings in front. -/
abbrev Scope := List (String × Value)

/-- Variable lookup in a scope. -/
def lookupVar (ctx : Scope) (name : String) : Option Value :=
  (ctx.find? (fun p => p.1 == name)).map (fun p => p.2)

/-- The fragment of hcl expressions exercised by the embedded code:
literal values (`hcltest.MockExprLiteral`), attribute traversals
(`hcltest.MockExprTraversalSrc`, also plain variables) and static lists of
expressions (`hcltest.MockExprList`), each carrying its source range. -/
inductive Expr where
  | lit (v : Value) (r : SrcRange)
  | traversal (root : String) (path : List String) (r : SrcRange)
  | exprList (elems : List Expr) (r : SrcRange)

/-- `hcl.Expression.Range`. -/
def Expr.range : Expr → SrcRange
  | .lit _ r => r
  | .traversal _ _ r => r
  | .exprList _ r => r

/-- `cty.Value.GetAttr` as reached through hcl traversal evaluation:
object attribute lookup (propagating the object's marks), attribute of an
unknown value is `cty.DynamicVal` carrying the same marks, attribute of a
null or non-object value is an error. -/
def Value.getAttr (v : Value) (name : String) (r : SrcRange) : Value × Diagnostics :=
  match v with
  | .objectV entries m =>
    match (entries.find? (fun p => p.1 == name)).map (fun p => p.2) with
    | some av => (av.withMarks m, [])
    | none => (dynamicVal,
        [⟨.error, "Unsupported attribute",
          "This object does not have an attribute named \"" ++ name ++ "\".", some r⟩])
  | .unknown _ m => (Value.unknown .dynamicPseudo m, [])
  | .nullV _ _ => (dynamicVal,
      [⟨.error, "Attempt to get attribute from null value",
        "This value is null, so it does not have any attributes.", some r⟩])
  | _ => (dynamicVal,
      [⟨.error, "Unsupported attribute",
        "This value does not have any attributes.", some r⟩])

/-- `hcl.Expression.Value`: literals evaluate to themselves; traversals look
the root variable up in the scope (an undefined variable yields
`cty.DynamicVal` together with an error diagnostic, as in hcl) and then walk
the attribute path.  Static list expressions are only ever destructured via
`exprListElems` by the embedded code, mirroring `hcl.ExprList`; evaluating
one directly is not exercised and is mapped to an error. -/
def Expr.value (e : Expr) (ctx : Scope) : Value × Diagnostics :=
  match e with
  | .lit v _ => (v, [])
  | .traversal root path r =>
    match lookupVar ctx root with
    | none => (dynamicVal,
        [⟨.error, "Unknown variable",
          "There is no variable named \"" ++ root ++ "\".", some r⟩])
    | some v0 =>
      path.foldl (fun acc name =>
        let step := acc.1.getAttr name r
        (step.1, acc.2 ++ step.2)) (v0, [])
  | .exprList _ r =>
    (dynamicVal,
      [⟨.error, "Invalid expression",
        "A static list expression was evaluated directly.", some r⟩])

/-- `hcl.AbsTraversalForExpr`: succeeds exactly on traversal expressions,
returning the chain of names. -/
def absTraversalForExpr (e : Expr) : List String × Diagnostics :=
  match e with
  | .traversal root path _ => (root :: path, [])
  | _ => ([],
      [⟨.error, "Invalid expression",
        "A single static variable reference is required.", some e.range⟩])

/-- `hcl.ExprList`: succeeds exactly on static list expressions. -/
def exprListElems (e : Expr) : List Expr × Diagnostics :=
  match e with
  | .exprList es _ => (es, [])
  | _ => ([],
      [⟨.error, "Invalid expression",
        "A static list expression is required.", some e.range⟩])

mutual
/-- `hcl.Block`: type, type range, labels with their ranges, body, defining
range. -/
inductive Block where
  | mk (btype : String) (typeRange : SrcRange) (labels : List String)
       (labelRanges : List SrcRange) (body : Body) (defRange : SrcRange)

/-- `hcl.Body`, in already-parsed form (as produced by `hcltest.MockBody` in
the tests): named attribute expressions, nested blocks, and the
missing-item range reported for absent required items. -/
inductive Body where
  | mk (attributes : List (String × Expr)) (blocks : List Block)
       (missingItemRange : SrcRange)
end

/-- Block type accessor. -/
def Block.btype : Block → String
  | .mk t _ _ _ _ _ => t

/-- Block type-range accessor. -/
def Block.typeRange : Block → SrcRange
  | .mk _ tr _ _ _ _ => tr

/-- Block labels accessor. -/
def Block.labels : Block → List String
  | .mk _ _ ls _ _ _ => ls

/-- Block label-ranges accessor. -/
def Block.labelRanges : Block → List SrcRange
  | .mk _ _ _ lrs _ _ => lrs

/-- Block body accessor. -/
def Block.body : Block → Body
  | .mk _ _ _ _ b _ => b

/-- Block defining-range accessor. -/
def Block.defRange : Block → SrcRange
  | .mk _ _ _ _ _ r => r

/-- Body attributes accessor. -/
def Body.attributes : Body → List (String × Expr)
  | .mk as _ _ => as

/-- Body blocks accessor. -/
def Body.blocks : Body → List Block
  | .mk _ bs _ => bs

/-- Body missing-item-range accessor. -/
def Body.missingItemRange : Body → SrcRange
  | .mk _ _ r => r

/-- `hcl.BlockHeaderSchema`: the requested block type and its required label
names. -/
structure BlockHeaderSchema where
  btype : String
  labelNames : List String

/-- Attribute lookup in a parsed body. -/
def lookupAttr (name : String) (attrs : List (String × Expr)) : Option Expr :=
  (attrs.find? (fun p => p.1 == name)).map (fun p => p.2)

/-- The result of `rawSpec.Body.Content(schema)` for the dynamic block body
schemas (`dynamicBlockBodySchemaLabels` / `dynamicBlockBodySchemaNoLabels`):
the `for_each` attribute (required), the optional `iterator` attribute, the
optional `labels` attribute (only present in the labels variant of the
schema), and the nested blocks of type `content` (the only block type the
schema requests). -/
structure DynBodyContent where
  forEachAttr : Option Expr
  iteratorAttr : Option Expr
  labelsAttr : Option Expr
  contentBlocks : List Block
  missingItemRange : SrcRange

/-- `rawSpec.Body.Content(schema)` for the two dynamic block body schemas.
Mirroring the mock bodies used by the package tests, attributes not named by
the schema are ignored; the only error produced is the missing required
`for_each` attribute. -/
def dynContent (withLabels : Bool) (b : Body) : DynBodyContent × Diagnostics :=
  let fe := lookupAttr "for_each" b.attributes
  let c : DynBodyContent :=
    ⟨fe, lookupAttr "iterator" b.attributes,
      if withLabels then lookupAttr "labels" b.attributes else none,
      b.blocks.filter (fun bl => bl.btype == "content"),
      b.missingItemRange⟩
  match fe with
  | none => (c,
      [⟨.error, "Missing required argument",
        "The argument \"for_each\" is required, but no definition was found.",
        some b.missingItemRange⟩])
  | some _ => (c, [])

/-- `expandDynamicSpec` (expand_spec.go): the parsed, validated dynamic
block directive. -/
structure ExpandDynamicSpec where
  blockType : String
  blockTypeRange : SrcRange
  defRange : SrcRange
  forEachVal : Value
  iteratorName : String
  labelExprs : List Expr
  contentBody : Body

/-- Final section of `decodeDynamicSpec`: the content-block checks and the
construction of the returned spec (expand_spec.go lines 127-157). -/
def decodeDynamicSpecContent (blockS : BlockHeaderSchema) (rawSpec : Block)
    (specContent : DynBodyContent) (eachVal : Value) (diags : Diagnostics)
    (iteratorName : String) (labelExprs : List Expr) :
    Option ExpandDynamicSpec × Diagnostics :=
  match specContent.contentBlocks with
  | [] => (none, diags ++
      [⟨.error, "Missing dynamic content block",
        "A dynamic block must have a nested block of type \"content\" to describe the body of each generated block.",
        some specContent.missingItemRange⟩])
  | [contentBlock] =>
    (some ⟨blockS.btype, rawSpec.labelRanges.getD 0 rawSpec.defRange,
      rawSpec.defRange, eachVal, iteratorName, labelExprs,
      contentBlock.body⟩, diags)
  | _ :: second :: _ =>
    (none, diags ++
      [⟨.error, "Extraneous dynamic content block",
        "Only one nested content block is allowed for each dynamic block.",
        some second.defRange⟩])

/-- The `labels` attribute section of `decodeDynamicSpec` (expand_spec.go
lines 99-125), continuing into `decodeDynamicSpecContent`. -/
def decodeDynamicSpecLabels (blockS : BlockHeaderSchema) (rawSpec : Block)
    (specContent : DynBodyContent) (eachVal : Value) (diags : Diagnostics)
    (iteratorName : String) : Option ExpandDynamicSpec × Diagnostics :=
  match specContent.labelsAttr with
  | some labelsAttr =>
    if (exprListElems labelsAttr).2.hasErrors then
      (none, diags ++ (exprListElems labelsAttr).2)
    else if (exprListElems labelsAttr).1.length > blockS.labelNames.length then
      (none, diags ++ (exprListElems labelsAttr).2 ++
        [⟨.error, "Extraneous dynamic block label",
          "Blocks of type \"" ++ blockS.btype ++ "\" require " ++
            toString blockS.labelNames.length ++ " label(s).",
          some ((exprListElems labelsAttr).1.getD blockS.labelNames.length
            labelsAttr).range⟩])
    else if (exprListElems labelsAttr).1.length < blockS.labelNames.length then
      (none, diags ++ (exprListElems labelsAttr).2 ++
        [⟨.error, "Insufficient dynamic block labels",
          "Blocks of type \"" ++ blockS.btype ++ "\" require " ++
            toString blockS.labelNames.length ++ " label(s).",
          some labelsAttr.range⟩])
    else
      decodeDynamicSpecContent blockS rawSpec specContent eachVal
        (diags ++ (exprListElems labelsAttr).2) iteratorName
        (exprListElems labelsAttr).1
  | none =>
    decodeDynamicSpecContent blockS rawSpec specContent eachVal diags
      iteratorName []

/-- `(*expandBody).decodeDynamicSpec` (expand_spec.go lines 26-157).  `ctx`
is the ambient evaluation context `b.ctx` of the expand body.  The checks
appear in source order: schema content extraction, the `for_each` value
checks (iterability before nullness, both on the unmarked value, skipping
the iterability error for the dynamic pseudo-type), the `iterator`
attribute, the `labels` attribute, and the single `content` block. -/
def decodeDynamicSpec (ctx : Scope) (blockS : BlockHeaderSchema)
    (rawSpec : Block) : Option ExpandDynamicSpec × Diagnostics :=
  let withLabels := blockS.labelNames.length != 0
  let sc := dynContent withLabels rawSpec.body
  let specContent := sc.1
  if sc.2.hasErrors then (none, sc.2) else
  match specContent.forEachAttr with
  | none => (none, sc.2)
  | some eachExpr =>
    let ev := eachExpr.value ctx
    let eachVal := ev.1
    let diags1 := sc.2 ++ ev.2
    let unmarkedEachVal := eachVal.unmark.1
    if !unmarkedEachVal.canIterateElements && !unmarkedEachVal.isDynamicType then
      (none, diags1 ++
        [⟨.error, "Invalid dynamic for_each value",
          "Cannot use a " ++ eachVal.friendlyTypeName ++
            " value in for_each. An iterable collection is required.",
          some eachExpr.range⟩])
    else if unmarkedEachVal.isNull then
      (none, diags1 ++
        [⟨.error, "Invalid dynamic for_each value",
          "Cannot use a null value in for_each.", some eachExpr.range⟩])
    else
      match specContent.iteratorAttr with
      | some iteratorAttr =>
        let it := absTraversalForExpr iteratorAttr
        let diags2 := diags1 ++ it.2
        if it.2.hasErrors then (none, diags2)
        else if it.1.length != 1 then
          (none, diags2 ++
            [⟨.error, "Invalid dynamic iterator name",
              "Dynamic iterator must be a single variable name.",
              some iteratorAttr.range⟩])
        else
          decodeDynamicSpecLabels blockS rawSpec specContent eachVal diags2
            (it.1.headD blockS.btype)
      | none =>
        decodeDynamicSpecLabels blockS rawSpec specContent eachVal diags1
          blockS.btype

/-- Modelled from the spec: the `dynamicIteration` / IterationContext type
is defined in expand_body.go, which is not among the available sources.  Per
the data model, it is one iterator binding (name, key, value) together with
the bindings inherited from enclosing nesting levels. -/
structure DynamicIteration where
  iteratorName : String
  key : Value
  value : Value
  inherited : List (String × Value × Value)

/-- Modelled from the spec: `dynamicIteration.EvalContext` layers the
iterator bindings — each exposed as an object with `key`/`value` attributes
— on top of the ambient scope. -/
def DynamicIteration.evalContext (i : DynamicIteration) (ctx : Scope) : Scope :=
  (i.iteratorName, Value.objectV [("key", i.key), ("value", i.value)] []) ::
    (i.inherited.map (fun p =>
      (p.1, Value.objectV [("key", p.2.1), ("value", p.2.2)] []))) ++ ctx

/-- The per-label loop of `(*expandDynamicSpec).newBlock` (expand_spec.go
lines 161-225): evaluate each label expression in the iteration scope, then
in order: expression errors abort, string-conversion failure is an error,
null is an error, an unknown value silently aborts without a diagnostic,
and a marked value is an error.  A `none` first component with error-free
diagnostics is the silent skip. -/
def newBlockLabels (lCtx : Scope) :
    List Expr → Option (List String × List SrcRange) × Diagnostics
  | [] => (some ([], []), [])
  | labelExpr :: rest =>
    let lv := labelExpr.value lCtx
    if lv.2.hasErrors then (none, lv.2)
    else
      match convertToString lv.1 with
      | .error convErr =>
        (none, lv.2 ++
          [⟨.error, "Invalid dynamic block label",
            "Cannot use this value as a dynamic block label: " ++ convErr ++ ".",
            some labelExpr.range⟩])
      | .ok labelVal =>
        if labelVal.isNull then
          (none, lv.2 ++
            [⟨.error, "Invalid dynamic block label",
              "Cannot use a null value as a dynamic block label.",
              some labelExpr.range⟩])
        else if !labelVal.isKnown then
          -- Unlike hcl/ext/dynblock, an unknown label is not an error and
          -- no new block is appended.
          (none, lv.2)
        else if labelVal.isMarked then
          (none, lv.2 ++
            [⟨.error, "Invalid dynamic block label",
              "This value has dynamic marks that make it unsuitable for use as a block label.",
              some labelExpr.range⟩])
        else
          let tail := newBlockLabels lCtx rest
          ((tail.1).map (fun p =>
            (labelVal.asString :: p.1, labelExpr.range :: p.2)),
            lv.2 ++ tail.2)

/-- `(*expandDynamicSpec).newBlock` (expand_spec.go lines 159-237): resolve
the labels for one iteration and assemble the synthetic block, whose body
is the spec's content body. -/
def ExpandDynamicSpec.newBlock (s : ExpandDynamicSpec) (i : DynamicIteration)
    (ctx : Scope) : Option Block × Diagnostics :=
  let lCtx := i.evalContext ctx
  let lr := newBlockLabels lCtx s.labelExprs
  match lr.1 with
  | none => (none, lr.2)
  | some p =>
    (some (Block.mk s.blockType s.blockTypeRange p.1 p.2 s.contentBody
      s.defRange), lr.2)

/-- `expandMetaArgSpec` (expand_spec.go lines 239-246): the decoded direct
`count`/`for_each` meta-arguments of an ordinary block.  The Go zero values
of the unset fields are modelled as a null dynamic value and zero. -/
structure ExpandMetaArgSpec where
  rawBlock : Block
  countSet : Bool := false
  countVal : Value := Value.nullV .dynamicPseudo []
  countNum : Int := 0
  forEachSet : Bool := false
  forEachVal : Value := Value.nullV .dynamicPseudo []

/-- The `for_each` section of `decodeMetaArgSpec` (expand_spec.go lines
323-367), entered once the `count` section has fallen through without an
early return.  The iterability and null checks match the dynamic-block
variant but with their own summaries and details; the diagnostic tweak that
drops the expression for marked values is not modelled, as the embedding
keeps no expression field in diagnostics. -/
def decodeMetaArgForEach (ctx : Scope) (spec : ExpandMetaArgSpec)
    (diags : Diagnostics) (eachAttr : Option Expr) :
    ExpandMetaArgSpec × Diagnostics :=
  match eachAttr with
  | none => (spec, diags)
  | some eachExpr =>
    let ev := eachExpr.value ctx
    let eachVal := ev.1
    let diags1 := diags ++ ev.2
    let spec1 := { spec with forEachSet := true, forEachVal := eachVal }
    if !eachVal.canIterateElements && !eachVal.isDynamicType then
      (spec1, diags1 ++
        [⟨.error, "The `for_each` value is not iterable",
          "`" ++ eachVal.goString ++ "` is not iterable",
          some eachExpr.range⟩])
    else if eachVal.isNull then
      (spec1, diags1 ++
        [⟨.error, "Invalid for_each argument",
          "The given \"for_each\" argument value is unsuitable: the given \"for_each\" argument value is null. A map, or set of strings is allowed.",
          some eachExpr.range⟩])
    else (spec1, diags1)

/-- `(*expandBody).decodeMetaArgSpec` (expand_spec.go lines 248-370).
`PartialContent` against `expandableBlockBodySchema` is the lenient lookup
of the optional `count` and `for_each` attributes (a partial-content call
reports no missing-item errors).  The `count` value is unmarked before
validation; validation is skipped entirely for unknown values; a null value,
a value that fails conversion to number, and a negative number each error
out early (skipping the `for_each` section), in that order.  `gocty.
FromCtyValue` into an int cannot fail in this embedding because numbers are
modelled as integers; its error arm is kept for non-numeric results of a
successful conversion, which cannot arise. -/
def decodeMetaArgSpec (ctx : Scope) (rawSpec : Block) :
    ExpandMetaArgSpec × Diagnostics :=
  let spec : ExpandMetaArgSpec := { rawBlock := rawSpec }
  let countAttr := lookupAttr "count" rawSpec.body.attributes
  let eachAttr := lookupAttr "for_each" rawSpec.body.attributes
  match countAttr with
  | none => decodeMetaArgForEach ctx spec [] eachAttr
  | some countExpr =>
    let cv := countExpr.value ctx
    let countVal := (cv.1.unmark).1
    let diags1 := cv.2
    let spec1 := { spec with countSet := true, countVal := countVal }
    if countVal.isKnown then
      if countVal.isNull then
        (spec1, diags1 ++
          [⟨.error, "Invalid count argument",
            "The given \"count\" argument value is null. An integer is required.",
            some countExpr.range⟩])
      else
        match convertToNumber countVal with
        | .error convErr =>
          (spec1, diags1 ++
            [⟨.error, "Incorrect value type",
              "Invalid expression value: " ++ convErr ++ ".",
              some countExpr.range⟩])
        | .ok converted =>
          match converted with
          | .num n _ =>
            if n < 0 then
              (spec1, diags1 ++
                [⟨.error, "Invalid count argument",
                  "The given \"count\" argument value is unsuitable: negative numbers are not supported.",
                  some countExpr.range⟩])
            else
              decodeMetaArgForEach ctx { spec1 with countNum := n } diags1
                eachAttr
          | _ =>
            (spec1, diags1 ++
              [⟨.error, "Invalid count argument",
                "The given \"count\" argument value is unsuitable: number value is required.",
                some countExpr.range⟩])
    else
      -- Validation is skipped for unknown count values.
      decodeMetaArgForEach ctx spec1 diags1 eachAttr

/-- A synthetic block produced by expansion, paired with the iteration
context it was generated under and the marks carried over from the
directive's `for_each` value (`none` iteration marks a literal block). -/
structure ExpandedBlock where
  block : Block
  iteration : Option DynamicIteration
  marks : List String

/-- General conversion to an expected type, restricted to the shapes the
embedded code exercises: conversion to string and number as above, the
dynamic pseudo-type accepts anything, and null/unknown values of dynamic
type convert to null/unknown of the expected type. -/
def convertToType (v : Value) (t : CtyType) : Except String Value :=
  match t with
  | .string => convertToString v
  | .number => convertToNumber v
  | .dynamicPseudo => .ok v
  | _ =>
    match v with
    | .nullV .dynamicPseudo m => .ok (.nullV t m)
    | .unknown .dynamicPseudo m => .ok (.unknown t m)
    | _ => .error (t.friendlyName ++ " required")

/-- Modelled from the spec: the per-directive collection step of the
Expander — keep the successfully built blocks, each paired with its
iteration, omitting elements whose block construction returned nothing. -/
def collectGenerated
    (rs : List (DynamicIteration × (Option Block × Diagnostics))) :
    List ExpandedBlock :=
  rs.foldr (fun r acc =>
    match r.2.1 with
    | some b => ⟨b, some r.1, []⟩ :: acc
    | none => acc) []

/-- Modelled from the spec: the diagnostics collected across a directive's
generated elements. -/
def collectDiags
    (rs : List (DynamicIteration × (Option Block × Diagnostics))) :
    Diagnostics :=
  rs.foldr (fun r acc => r.2.2 ++ acc) []

/-- Modelled from the spec: one step of the Expander's walk over a source
body (expand_body.go is not among the available sources).  A literal block
passes through unchanged; a `dynamic` block is decoded with
`decodeDynamicSpec` (which is embedded from the source); per section 4.4 of
the spec, an unknown or marked `for_each` value produces a single
best-effort placeholder element whose iterator key and value are unknown
and whose marks are remembered; a known unmarked `for_each` iterates the
collection in its natural enumeration order, building one block per
element via `newBlock` (embedded from the source), omitting elements whose
block construction returned nothing while keeping their diagnostics. -/
def expandDynamicBlock (ctx : Scope) (schemas : String → BlockHeaderSchema)
    (bl : Block) : List ExpandedBlock × Diagnostics :=
  if bl.btype != "dynamic" then ([⟨bl, none, []⟩], [])
  else
    match bl.labels with
    | [target] =>
      let blockS := schemas target
      let dec := decodeDynamicSpec ctx blockS bl
      match dec.1 with
      | none => ([], dec.2)
      | some spec =>
        let um := spec.forEachVal.unmark
        if !um.1.isKnown || !um.2.isEmpty then
          let i : DynamicIteration := ⟨spec.iteratorName, dynamicVal, dynamicVal, []⟩
          let nb := spec.newBlock i ctx
          match nb.1 with
          | some b => ([⟨b, some i, um.2⟩], dec.2 ++ nb.2)
          | none => ([], dec.2 ++ nb.2)
        else
          (collectGenerated (um.1.iterateElements.map (fun kv =>
              (⟨spec.iteratorName, kv.1, kv.2, []⟩, spec.newBlock
                ⟨spec.iteratorName, kv.1, kv.2, []⟩ ctx))),
            dec.2 ++ collectDiags (um.1.iterateElements.map (fun kv =>
              (⟨spec.iteratorName, kv.1, kv.2, []⟩, spec.newBlock
                ⟨spec.iteratorName, kv.1, kv.2, []⟩ ctx))))
    | _ => ([],
        [⟨.error, "Invalid dynamic block",
          "A dynamic block requires exactly one label, the generated block type.",
          some bl.defRange⟩])

/-- Modelled from the spec: the Expander's walk of one source body, keeping
literal blocks and dynamic-generated blocks interleaved in source
declaration order, with each directive's generated run in collection
iteration order (section 4.3 step 6). -/
def expandBody (ctx : Scope) (schemas : String → BlockHeaderSchema)
    (b : Body) : List ExpandedBlock × Diagnostics :=
  b.blocks.foldr (fun bl acc =>
    let r := expandDynamicBlock ctx schemas bl
    (r.1 ++ acc.1, r.2 ++ acc.2)) ([], [])

/-- Modelled from the spec: schema-driven decoding of the content
attributes of one expanded block (the consumed hcldec capability, section
4.4): each requested attribute is evaluated in the ambient scope layered
with the block's iteration bindings, converted to its expected type (an
absent attribute decodes as null of the expected type, a conversion
failure as unknown of the expected type plus a diagnostic), and the marks
carried over from the directive's `for_each` value are applied to every
resulting value. -/
def decodeContentAttrs (ctx : Scope) (eb : ExpandedBlock)
    (attrS : List (String × CtyType)) : List (String × Value) × Diagnostics :=
  let lCtx :=
    match eb.iteration with
    | some i => i.evalContext ctx
    | none => ctx
  let results := attrS.map (fun p =>
    match lookupAttr p.1 eb.block.body.attributes with
    | none => ((p.1, (Value.nullV p.2 []).withMarks eb.marks), ([] : Diagnostics))
    | some e =>
      let ev := e.value lCtx
      match convertToType ev.1 p.2 with
      | .ok v2 => ((p.1, v2.withMarks eb.marks), ev.2)
      | .error msg =>
        ((p.1, (Value.unknown p.2 []).withMarks eb.marks),
          ev.2 ++ ([⟨.error, "Incorrect attribute value type",
            "Inappropriate value for attribute \"" ++ p.1 ++ "\": " ++ msg ++ ".",
            some e.range⟩] : Diagnostics)))
  (results.map (fun r => r.1), results.foldr (fun r acc => r.2 ++ acc) [])

/-- Whether any diagnostic in the list carries the given summary. -/
def hasSummary (ds : Diagnostics) (s : String) : Bool :=
  ds.any (fun d => d.summary == s)

/-- A minimal `content` block used by concrete witnesses. -/
def contentBlk : Block := Block.mk "content" 5 [] [] (Body.mk [] [] 6) 7

/-- A raw `dynamic "b"` block with the given body attributes and nested
blocks, used by concrete witnesses. -/
def mkDynBlock (attrs : List (String × Expr)) (blks : List Block) : Block :=
  Block.mk "dynamic" 0 ["b"] [1] (Body.mk attrs blks 3) 4

/-- A raw ordinary block carrying direct meta-arguments, used by concrete
witnesses. -/
def mkMetaBlock (attrs : List (String × Expr)) : Block :=
  Block.mk "resource" 0 ["r", "n"] [1, 2] (Body.mk attrs [] 3) 4

/-- C9: for every dynamic block directive whose `for_each` decodes cleanly
and that carries no `iterator` or `labels` attribute, decoding requires
exactly one nested content block: zero content blocks yields the error
"Missing dynamic content block"; more than one yields the error
"Extraneous dynamic content block" whose source range is the second
content block's defining range; with exactly one, the returned spec's
template body is that content block's body (and no error is reported). -/
theorem dynamicContentBlockCount (ctx : Scope) (blockS : BlockHeaderSchema)
    (attrs : List (String × Expr)) (bs : List Block)
    (tr mir dr : SrcRange) (lbls : List String) (lrs : List SrcRange)
    (v : Value) (rfe : SrcRange)
    (hfe : lookupAttr "for_each" attrs = some (.lit v rfe))
    (hit : lookupAttr "iterator" attrs = none)
    (hlb : lookupAttr "labels" attrs = none)
    (hv1 : v.unmark.1.canIterateElements = true)
    (hv2 : v.unmark.1.isNull = false) :
    let raw := Block.mk "dynamic" tr lbls lrs (Body.mk attrs bs mir) dr
    let res := decodeDynamicSpec ctx blockS raw
    let cbs := bs.filter (fun bl => bl.btype == "content")
    (cbs = [] → res = (none,
      [⟨.error, "Missing dynamic content block",
        "A dynamic block must have a nested block of type \"content\" to describe the body of each generated block.",
        some mir⟩])) ∧
    (∀ b1 b2 rest, cbs = b1 :: b2 :: rest → res = (none,
      [⟨.error, "Extraneous dynamic content block",
        "Only one nested content block is allowed for each dynamic block.",
        some b2.defRange⟩])) ∧
    (∀ cb, cbs = [cb] → res = (some ⟨blockS.btype, lrs.getD 0 dr, dr, v,
      blockS.btype, [], cb.body⟩, [])) := by
  have hdecode : decodeDynamicSpec ctx blockS
      (Block.mk "dynamic" tr lbls lrs (Body.mk attrs bs mir) dr) =
      decodeDynamicSpecContent blockS
        (Block.mk "dynamic" tr lbls lrs (Body.mk attrs bs mir) dr)
        ⟨some (.lit v rfe), none, none,
          bs.filter (fun bl => bl.btype == "content"), mir⟩ v [] blockS.btype
        [] := by
    simp [decodeDynamicSpec, dynContent, decodeDynamicSpecLabels, hfe, hit,
      hlb, hv1, hv2, Expr.value, Diagnostics.hasErrors, Block.body,
      Body.attributes, Body.blocks, Body.missingItemRange]
  refine ⟨?_, ?_, ?_⟩
  · intro hcbs
    rw [hdecode]
    simp [decodeDynamicSpecContent, hcbs]
  · intro b1 b2 rest hcbs
    rw [hdecode]
    simp [decodeDynamicSpecContent, hcbs]
  · intro cb hcbs
    rw [hdecode]
    simp [decodeDynamicSpecContent, hcbs, Block.labelRanges, Block.defRange]

/-- Witness for C9: at a concrete directive with exactly one content block,
decoding succeeds with that block's body as the template body. -/
theorem dynamicContentBlockCount_witness :
    decodeDynamicSpec [] ⟨"b", []⟩ (Block.mk "dynamic" 10 ["b"] [1]
      (Body.mk [("for_each", .lit (.tupleV [] []) 2)] [contentBlk] 3) 4) =
      (some ⟨"b", 1, 4, .tupleV [] [], "b", [], Body.mk [] [] 6⟩, []) := by
  have h := dynamicContentBlockCount [] ⟨"b", []⟩
    [("for_each", .lit (.tupleV [] []) 2)] [contentBlk] 10 3 4 ["b"] [1]
    (.tupleV [] []) 2 rfl rfl rfl rfl rfl
  obtain ⟨-, -, h3⟩ := h
  exact h3 contentBlk rfl

/-- Diagnostics produced by `exprListElems` always carry the summary
"Invalid expression". -/
theorem exprListElems_diags (e : Expr) :
    ∀ d ∈ (exprListElems e).2, d.summary = "Invalid expression" := by
  intro d hd
  cases e <;> simp [exprListElems] at hd <;> simp [hd]

/-- The content stage of decoding only ever appends diagnostics whose
summary concerns content blocks. -/
theorem decodeDynamicSpecContent_diags (blockS : BlockHeaderSchema)
    (rawSpec : Block) (sc : DynBodyContent) (v : Value) (diags : Diagnostics)
    (itn : String) (les : List Expr) :
    ∀ d ∈ (decodeDynamicSpecContent blockS rawSpec sc v diags itn les).2,
      d ∈ diags ∨ d.summary = "Missing dynamic content block" ∨
        d.summary = "Extraneous dynamic content block" := by
  intro d hd
  unfold decodeDynamicSpecContent at hd
  rcases h : sc.contentBlocks with - | ⟨b1, rest1⟩
  · rw [h] at hd
    simp at hd
    rcases hd with hd | hd
    · exact Or.inl hd
    · right; simp [hd]
  · rcases rest1 with - | ⟨b2, rest2⟩ <;> rw [h] at hd <;> simp at hd
    · exact Or.inl hd
    · rcases hd with hd | hd
      · exact Or.inl hd
      · right; simp [hd]

/-- The labels stage of decoding only ever appends diagnostics whose
summary concerns label lists or content blocks. -/
theorem decodeDynamicSpecLabels_diags (blockS : BlockHeaderSchema)
    (rawSpec : Block) (sc : DynBodyContent) (v : Value) (diags : Diagnostics)
    (itn : String) :
    ∀ d ∈ (decodeDynamicSpecLabels blockS rawSpec sc v diags itn).2,
      d ∈ diags ∨ d.summary = "Invalid expression" ∨
        d.summary = "Extraneous dynamic block label" ∨
        d.summary = "Insufficient dynamic block labels" ∨
        d.summary = "Missing dynamic content block" ∨
        d.summary = "Extraneous dynamic content block" := by
  intro d hd
  unfold decodeDynamicSpecLabels at hd
  split at hd
  next la hla =>
    split at hd
    · simp at hd
      rcases hd with hd | hd
      · exact Or.inl hd
      · right
        simp [exprListElems_diags la d hd]
    · split at hd
      · simp at hd
        rcases hd with hd | hd | hd
        · exact Or.inl hd
        · right; simp [exprListElems_diags la d hd]
        · right; simp [hd]
      · split at hd
        · simp at hd
          rcases hd with hd | hd | hd
          · exact Or.inl hd
          · right; simp [exprListElems_diags la d hd]
          · right; simp [hd]
        · rcases decodeDynamicSpecContent_diags blockS rawSpec sc v
              (diags ++ (exprListElems la).2) itn (exprListElems la).1 d hd
            with h | h
          · simp at h
            rcases h with h | h
            · exact Or.inl h
            · right; simp [exprListElems_diags la d h]
          · right
            rcases h with h | h <;> simp [h]
  next =>
    rcases decodeDynamicSpecContent_diags blockS rawSpec sc v diags itn [] d hd
      with h | h
    · exact Or.inl h
    · right
      rcases h with h | h <;> simp [h]

/-- C3 counterexample: a null `for_each` value of string type is rejected
by the iterability check, yielding the "iterable collection" error citing
the concrete type name — not the "must not be null" error the claim
predicts for every null result (the iterability check precedes the null
check). -/
theorem forEachNullStringGetsIterableError :
    (Value.nullV .string []).isNull = true ∧
    decodeDynamicSpec [] ⟨"b", []⟩
      (mkDynBlock [("for_each", .lit (.nullV .string []) 2)] [contentBlk]) =
      (none, [⟨.error, "Invalid dynamic for_each value",
        "Cannot use a string value in for_each. An iterable collection is required.",
        some 2⟩]) ∧
    ((decodeDynamicSpec [] ⟨"b", []⟩
      (mkDynBlock [("for_each", .lit (.nullV .string []) 2)] [contentBlk])).2.all
      (fun d => d.detail != "Cannot use a null value in for_each.")) = true :=
  ⟨rfl, rfl, rfl⟩

/-- C3 amended: decoding the `for_each` expression checks iterability
before nullness, both on the unmarked value: a result that can neither
iterate elements nor has dynamic type — null or not — yields the error
citing the value's concrete type name; a null result of iterable or
dynamic type yields the "must not be null" error; a non-null result of
iterable or dynamic type (including unknown results of dynamic type, whose
expansion is deferred) produces no for_each-value error at all. -/
theorem decodeDynamicForEachPolicy (ctx : Scope)
    (blockS : BlockHeaderSchema) (attrs : List (String × Expr))
    (bs : List Block) (tr mir dr : SrcRange) (lbls : List String)
    (lrs : List SrcRange) (v : Value) (rfe : SrcRange)
    (hfe : lookupAttr "for_each" attrs = some (.lit v rfe)) :
    let raw := Block.mk "dynamic" tr lbls lrs (Body.mk attrs bs mir) dr
    let u := v.unmark.1
    let res := decodeDynamicSpec ctx blockS raw
    (u.canIterateElements = false → u.isDynamicType = false →
      res = (none, [⟨.error, "Invalid dynamic for_each value",
        "Cannot use a " ++ v.friendlyTypeName ++
          " value in for_each. An iterable collection is required.",
        some rfe⟩])) ∧
    ((u.canIterateElements = true ∨ u.isDynamicType = true) →
      u.isNull = true →
      res = (none, [⟨.error, "Invalid dynamic for_each value",
        "Cannot use a null value in for_each.", some rfe⟩])) ∧
    ((u.canIterateElements = true ∨ u.isDynamicType = true) →
      u.isNull = false →
      res.2.all (fun d => d.summary != "Invalid dynamic for_each value")
        = true) := by
  refine ⟨?_, ?_, ?_⟩
  · intro h1 h2
    simp [decodeDynamicSpec, dynContent, hfe, Expr.value, Expr.range,
      Diagnostics.hasErrors, Block.body, Body.attributes, Body.blocks,
      Body.missingItemRange, h1, h2]
  · intro h1 h2
    have hcase : (!(v.unmark.1.canIterateElements) &&
        !(v.unmark.1.isDynamicType)) = false := by
      rcases h1 with h | h <;> simp [h]
    simp [decodeDynamicSpec, dynContent, hfe, Expr.value, Expr.range,
      Diagnostics.hasErrors, Block.body, Body.attributes, Body.blocks,
      Body.missingItemRange, hcase, h2]
  · intro hiter hnull
    have hcase : (!(v.unmark.1.canIterateElements) &&
        !(v.unmark.1.isDynamicType)) = false := by
      rcases hiter with h | h <;> simp [h]
    have htail : ∀ d ∈ (decodeDynamicSpec ctx blockS (Block.mk "dynamic"
        tr lbls lrs (Body.mk attrs bs mir) dr)).2,
        d.summary ≠ "Invalid dynamic for_each value" := by
      intro d hd
      rw [decodeDynamicSpec] at hd
      simp only [dynContent, hfe, Expr.value, Block.body, Body.attributes,
        Body.blocks, Body.missingItemRange] at hd
      simp only [Diagnostics.hasErrors, List.any_nil] at hd
      rw [if_neg (by simp)] at hd
      simp only [hcase, Bool.false_eq_true, if_false, hnull] at hd
      split at hd
      next ie hit =>
        split at hd
        · simp at hd
          cases ie <;> simp [absTraversalForExpr] at hd <;> simp [hd]
        · split at hd
          · simp at hd
            rcases hd with hd | hd
            · cases ie <;> simp [absTraversalForExpr] at hd <;> simp [hd]
            · simp [hd]
          · rcases decodeDynamicSpecLabels_diags _ _ _ _ _ _ d hd
              with h | h
            · simp at h
              cases ie <;> simp [absTraversalForExpr] at h <;> simp [h]
            · rcases h with h | h | h | h | h <;> simp [h]
      next hit =>
        rcases decodeDynamicSpecLabels_diags _ _ _ _ _ _ d hd with h | h
        · simp at h
        · rcases h with h | h | h | h | h <;> simp [h]
    simp only [List.all_eq_true]
    intro d hd
    simpa using htail d hd

/-- Witness for C3 at concrete inputs: a null value of list type yields the
null error, and an unknown value of dynamic type yields no for_each-value
error. -/
theorem decodeDynamicForEachPolicy_witness :
    decodeDynamicSpec [] ⟨"b", []⟩
      (mkDynBlock [("for_each", .lit (.nullV (.list .string) []) 2)]
        [contentBlk]) =
      (none, [⟨.error, "Invalid dynamic for_each value",
        "Cannot use a null value in for_each.", some 2⟩]) ∧
    ((decodeDynamicSpec [] ⟨"b", []⟩
      (mkDynBlock [("for_each", .lit (.unknown .dynamicPseudo []) 2)]
        [contentBlk])).2.all
      (fun d => d.summary != "Invalid dynamic for_each value")) = true := by
  constructor
  · have h := decodeDynamicForEachPolicy [] ⟨"b", []⟩
      [("for_each", .lit (.nullV (.list .string) []) 2)] [contentBlk]
      0 3 4 ["b"] [1] (.nullV (.list .string) []) 2 rfl
    obtain ⟨-, h2, -⟩ := h
    exact h2 (Or.inl rfl) rfl
  · have h := decodeDynamicForEachPolicy [] ⟨"b", []⟩
      [("for_each", .lit (.unknown .dynamicPseudo []) 2)] [contentBlk]
      0 3 4 ["b"] [1] (.unknown .dynamicPseudo []) 2 rfl
    obtain ⟨-, -, h3⟩ := h
    exact h3 (Or.inr rfl) rfl

/-- When the content stage rejects a directive, its diagnostics contain an
error. -/
theorem decodeDynamicSpecContent_none (blockS : BlockHeaderSchema)
    (rawSpec : Block) (sc : DynBodyContent) (v : Value) (diags : Diagnostics)
    (itn : String) (les : List Expr) :
    (decodeDynamicSpecContent blockS rawSpec sc v diags itn les).1 = none →
    (decodeDynamicSpecContent blockS rawSpec sc v diags itn
      les).2.hasErrors = true := by
  unfold decodeDynamicSpecContent
  split
  · intro _
    simp [Diagnostics.hasErrors]
  · intro h
    simp at h
  · intro _
    simp [Diagnostics.hasErrors]

/-- When the labels stage rejects a directive, its diagnostics contain an
error. -/
theorem decodeDynamicSpecLabels_none (blockS : BlockHeaderSchema)
    (rawSpec : Block) (sc : DynBodyContent) (v : Value) (diags : Diagnostics)
    (itn : String) :
    (decodeDynamicSpecLabels blockS rawSpec sc v diags itn).1 = none →
    (decodeDynamicSpecLabels blockS rawSpec sc v diags itn).2.hasErrors
      = true := by
  unfold decodeDynamicSpecLabels
  split
  next la =>
    split
    next he =>
      intro _
      simp only [Diagnostics.hasErrors, List.any_append]
      simp only [Diagnostics.hasErrors] at he
      simp [he]
    next he =>
      split
      · intro _
        simp [Diagnostics.hasErrors]
      · split
        · intro _
          simp [Diagnostics.hasErrors]
        · exact decodeDynamicSpecContent_none _ _ _ _ _ _ _
  next =>
    exact decodeDynamicSpecContent_none _ _ _ _ _ _ _

/-- A dynamic body content without a `for_each` attribute always carries the
missing-argument error. -/
theorem dynContent_missing (withLabels : Bool) (b : Body) :
    (dynContent withLabels b).1.forEachAttr = none →
    (dynContent withLabels b).2.hasErrors = true := by
  unfold dynContent
  rcases h : lookupAttr "for_each" b.attributes with - | e
  · intro _
    simp [Diagnostics.hasErrors]
  · intro hc
    simp at hc

/-- C10 counterexample: evaluating the `for_each` expression can itself
produce error diagnostics (here an undefined variable, which hcl evaluates
to an unknown value of dynamic type alongside an error); the decoder
collects the error and keeps going, returning a non-nil spec together with
error diagnostics, so "non-nil iff no errors" fails. -/
theorem nonNilSpecWithErrorDiags :
    ((decodeDynamicSpec [] ⟨"b", []⟩
      (mkDynBlock [("for_each", .traversal "x" [] 2)] [contentBlk])).1.isSome)
      = true ∧
    ((decodeDynamicSpec [] ⟨"b", []⟩
      (mkDynBlock [("for_each", .traversal "x" [] 2)]
        [contentBlk])).2.hasErrors) = true :=
  ⟨rfl, rfl⟩

/-- C10 amended: whenever any validation step fails, `decodeDynamicSpec`
returns a nil spec immediately, and a nil spec is always accompanied by
error diagnostics (so no partially-populated spec escapes a failed
validation); however the converse direction of the claim fails, because
`for_each` expression-evaluation errors are collected while decoding
continues, so a non-nil spec may still be accompanied by error
diagnostics. -/
theorem nilSpecImpliesErrors (ctx : Scope) (blockS : BlockHeaderSchema)
    (rawSpec : Block)
    (h : (decodeDynamicSpec ctx blockS rawSpec).1 = none) :
    (decodeDynamicSpec ctx blockS rawSpec).2.hasErrors = true := by
  revert h
  unfold decodeDynamicSpec
  dsimp only
  split
  next he =>
    intro _
    exact he
  next he =>
    split
    next hfe =>
      intro _
      exact absurd (dynContent_missing (blockS.labelNames.length != 0)
        rawSpec.body hfe) (by simp [he])
    next eachExpr hfe =>
      split
      · intro _
        simp [Diagnostics.hasErrors]
      · split
        · intro _
          simp [Diagnostics.hasErrors]
        · split
          next ie hit =>
            split
            next hte =>
              intro _
              simp only [Diagnostics.hasErrors, List.any_append]
              simp only [Diagnostics.hasErrors] at hte
              simp [hte]
            next hte =>
              split
              · intro _
                simp [Diagnostics.hasErrors]
              · exact decodeDynamicSpecLabels_none _ _ _ _ _ _
          next hit =>
            exact decodeDynamicSpecLabels_none _ _ _ _ _ _

/-- Witness for C10: a directive with a null `for_each` decodes to a nil
spec, and the theorem yields that its diagnostics carry errors. -/
theorem nilSpecImpliesErrors_witness :
    (decodeDynamicSpec [] ⟨"b", []⟩
      (mkDynBlock [("for_each", .lit (.nullV .dynamicPseudo []) 2)]
        [contentBlk])).2.hasErrors = true :=
  nilSpecImpliesErrors [] ⟨"b", []⟩
    (mkDynBlock [("for_each", .lit (.nullV .dynamicPseudo []) 2)]
      [contentBlk]) rfl

/-- The summaries that attribute access can contribute to expression
evaluation. -/
theorem getAttr_diags (v : Value) (name : String) (r : SrcRange) :
    ∀ d ∈ (v.getAttr name r).2, d.summary = "Unsupported attribute" ∨
      d.summary = "Attempt to get attribute from null value" := by
  intro d hd
  cases v with
  | nullV t m => simp [Value.getAttr] at hd; simp [hd]
  | unknown t m => simp [Value.getAttr] at hd
  | str s m => simp [Value.getAttr] at hd; simp [hd]
  | num n m => simp [Value.getAttr] at hd; simp [hd]
  | boolV b m => simp [Value.getAttr] at hd; simp [hd]
  | listV t es m => simp [Value.getAttr] at hd; simp [hd]
  | mapV t es m => simp [Value.getAttr] at hd; simp [hd]
  | tupleV es m => simp [Value.getAttr] at hd; simp [hd]
  | objectV entries m =>
    simp only [Value.getAttr] at hd
    rcases h : (entries.find? (fun p => p.1 == name)).map (fun p => p.2)
      with - | av <;> rw [h] at hd <;> simp at hd
    simp [hd]

/-- The summaries that expression evaluation can produce. -/
theorem exprValue_diags (e : Expr) (ctx : Scope) :
    ∀ d ∈ (e.value ctx).2, d.summary = "Unknown variable" ∨
      d.summary = "Unsupported attribute" ∨
      d.summary = "Attempt to get attribute from null value" ∨
      d.summary = "Invalid expression" := by
  intro d hd
  cases e with
  | lit v r => simp [Expr.value] at hd
  | exprList es r =>
    simp [Expr.value] at hd
    simp [hd]
  | traversal root path r =>
    rw [Expr.value] at hd
    revert hd
    rcases h : lookupVar ctx root with - | v0
    · intro hd
      simp at hd
      simp [hd]
    · intro hd
      have main : ∀ (path : List String) (v : Value) (acc : Diagnostics),
          (∀ d ∈ acc, d.summary = "Unknown variable" ∨
            d.summary = "Unsupported attribute" ∨
            d.summary = "Attempt to get attribute from null value" ∨
            d.summary = "Invalid expression") →
          ∀ d ∈ (path.foldl (fun acc name =>
            ((acc.1.getAttr name r).1, acc.2 ++ (acc.1.getAttr name r).2))
            (v, acc)).2,
          d.summary = "Unknown variable" ∨
            d.summary = "Unsupported attribute" ∨
            d.summary = "Attempt to get attribute from null value" ∨
            d.summary = "Invalid expression" := by
        intro path
        induction path with
        | nil => intro v acc hacc d hd; exact hacc d hd
        | cons nm rest ih =>
          intro v acc hacc d hd
          refine ih _ _ ?_ d hd
          intro d2 hd2
          rw [List.mem_append] at hd2
          rcases hd2 with h2 | h2
          · exact hacc d2 h2
          · rcases getAttr_diags v nm r d2 h2 with h3 | h3
            · exact Or.inr (Or.inl h3)
            · exact Or.inr (Or.inr (Or.inl h3))
      exact main path v0 [] (by intro d2 hd2; simp at hd2) d hd

/-- The `for_each` stage of meta-argument decoding never contributes a
count-related summary. -/
theorem decodeMetaArgForEach_diags (ctx : Scope) (spec : ExpandMetaArgSpec)
    (diags : Diagnostics) (eachAttr : Option Expr) :
    ∀ d ∈ (decodeMetaArgForEach ctx spec diags eachAttr).2,
      d ∈ diags ∨ (d.summary ≠ "Invalid count argument" ∧
        d.summary ≠ "Incorrect value type") := by
  intro d hd
  unfold decodeMetaArgForEach at hd
  split at hd
  · exact Or.inl hd
  next eachExpr =>
    dsimp only at hd
    have hev : ∀ d2 ∈ (eachExpr.value ctx).2,
        d2.summary ≠ "Invalid count argument" ∧
        d2.summary ≠ "Incorrect value type" := by
      intro d2 hd2
      rcases exprValue_diags eachExpr ctx d2 hd2 with h | h | h | h <;>
        rw [h] <;> exact ⟨by decide, by decide⟩
    split at hd
    · simp at hd
      rcases hd with hd | hd | hd
      · exact Or.inl hd
      · exact Or.inr (hev d hd)
      · right; simp [hd]
    · split at hd
      · simp at hd
        rcases hd with hd | hd | hd
        · exact Or.inl hd
        · exact Or.inr (hev d hd)
        · right; simp [hd]
      · rw [List.mem_append] at hd
        rcases hd with hd | hd
        · exact Or.inl hd
        · exact Or.inr (hev d hd)

/-- The `for_each` stage of meta-argument decoding leaves the count fields
of the spec untouched. -/
theorem decodeMetaArgForEach_count (ctx : Scope) (spec : ExpandMetaArgSpec)
    (diags : Diagnostics) (eachAttr : Option Expr) :
    (decodeMetaArgForEach ctx spec diags eachAttr).1.countSet = spec.countSet
    ∧ (decodeMetaArgForEach ctx spec diags eachAttr).1.countVal
        = spec.countVal
    ∧ (decodeMetaArgForEach ctx spec diags eachAttr).1.countNum
        = spec.countNum := by
  unfold decodeMetaArgForEach
  split
  · exact ⟨rfl, rfl, rfl⟩
  · dsimp only
    split
    · exact ⟨rfl, rfl, rfl⟩
    · split
      · exact ⟨rfl, rfl, rfl⟩
      · exact ⟨rfl, rfl, rfl⟩

/-- C4: decoding the `count` attribute of an ordinary block behaves as
follows on the unmarked value: a known null value yields the "is null, an
integer is required" error; a known non-null value that fails conversion to
number yields an error citing the conversion failure detail; a negative
result yields an error whose detail names "negative numbers are not
supported"; an unknown value is accepted — the spec still records the
count attribute and its value, and no count validation error is emitted
(evaluation is deferred). -/
theorem decodeMetaArgCountPolicy (ctx : Scope) (bt : String)
    (attrs : List (String × Expr)) (bs : List Block)
    (tr mir dr : SrcRange) (lbls : List String) (lrs : List SrcRange)
    (v : Value) (rc : SrcRange)
    (hc : lookupAttr "count" attrs = some (.lit v rc)) :
    let raw := Block.mk bt tr lbls lrs (Body.mk attrs bs mir) dr
    let u := v.unmark.1
    let spec1 : ExpandMetaArgSpec :=
      { rawBlock := raw, countSet := true, countVal := u }
    let res := decodeMetaArgSpec ctx raw
    (u.isKnown = true → u.isNull = true → res = (spec1,
      [⟨.error, "Invalid count argument",
        "The given \"count\" argument value is null. An integer is required.",
        some rc⟩])) ∧
    (u.isKnown = true → u.isNull = false →
      ∀ msg, convertToNumber u = .error msg → res = (spec1,
      [⟨.error, "Incorrect value type",
        "Invalid expression value: " ++ msg ++ ".", some rc⟩])) ∧
    (u.isKnown = true → u.isNull = false →
      ∀ n m, convertToNumber u = .ok (.num n m) → n < 0 → res = (spec1,
      [⟨.error, "Invalid count argument",
        "The given \"count\" argument value is unsuitable: negative numbers are not supported.",
        some rc⟩])) ∧
    (u.isKnown = false →
      res.1.countSet = true ∧ res.1.countVal = u ∧
      res.2.all (fun d => d.summary != "Invalid count argument" &&
        d.summary != "Incorrect value type") = true) := by
  refine ⟨?_, ?_, ?_, ?_⟩
  · intro hk hn
    simp [decodeMetaArgSpec, hc, Expr.value, Expr.range, Block.body,
      Body.attributes, hk, hn]
  · intro hk hn msg hconv
    simp [decodeMetaArgSpec, hc, Expr.value, Expr.range, Block.body,
      Body.attributes, hk, hn, hconv]
  · intro hk hn n m hconv hneg
    simp [decodeMetaArgSpec, hc, Expr.value, Expr.range, Block.body,
      Body.attributes, hk, hn, hconv, hneg]
  · intro hk
    have hres : decodeMetaArgSpec ctx
        (Block.mk bt tr lbls lrs (Body.mk attrs bs mir) dr) =
        decodeMetaArgForEach ctx
          { rawBlock := Block.mk bt tr lbls lrs (Body.mk attrs bs mir) dr,
            countSet := true, countVal := v.unmark.1 } []
          (lookupAttr "for_each" attrs) := by
      simp [decodeMetaArgSpec, hc, Expr.value, Block.body, Body.attributes,
        hk]
    rw [hres]
    refine ⟨(decodeMetaArgForEach_count _ _ _ _).1, ?_, ?_⟩
    · exact (decodeMetaArgForEach_count _ _ _ _).2.1
    · simp only [List.all_eq_true]
      intro d hd
      rcases decodeMetaArgForEach_diags _ _ _ _ d hd with h | h
      · simp at h
      · simp [h.1, h.2]

/-- Witness for C4 at concrete inputs: `count = -1` yields the
negative-number error, and an unknown count is accepted without a count
validation error. -/
theorem decodeMetaArgCountPolicy_witness :
    decodeMetaArgSpec [] (mkMetaBlock [("count", .lit (.num (-1) []) 2)]) =
      ({ rawBlock := mkMetaBlock [("count", .lit (.num (-1) []) 2)],
         countSet := true, countVal := .num (-1) [] },
       [⟨.error, "Invalid count argument",
         "The given \"count\" argument value is unsuitable: negative numbers are not supported.",
         some 2⟩]) ∧
    (decodeMetaArgSpec []
      (mkMetaBlock [("count", .lit (.unknown .number ["m"]) 2)])).2.all
      (fun d => d.summary != "Invalid count argument" &&
        d.summary != "Incorrect value type") = true := by
  constructor
  · have h := decodeMetaArgCountPolicy [] "resource"
      [("count", .lit (.num (-1) []) 2)] [] 0 3 4 ["r", "n"] [1, 2]
      (.num (-1) []) 2 rfl
    obtain ⟨-, -, h3, -⟩ := h
    exact h3 rfl rfl (-1) [] rfl (by decide)
  · have h := decodeMetaArgCountPolicy [] "resource"
      [("count", .lit (.unknown .number ["m"]) 2)] [] 0 3 4 ["r", "n"] [1, 2]
      (.unknown .number ["m"]) 2 rfl
    obtain ⟨-, -, -, h4⟩ := h
    exact (h4 rfl).2.2

/-- A sample iteration used by the label-handling witnesses. -/
def iterX : DynamicIteration := ⟨"b", .num 0 [], .str "e" [], []⟩

/-- C6 counterexample: a marked but unknown label value is silently skipped
by the unknown-label check, which precedes the mark check — no block and no
diagnostic at all, contradicting the claim that every marked label value
fails with the dynamic-marks error. -/
theorem markedUnknownLabelSilentlySkipped :
    (Value.unknown .string ["boop"]).isMarked = true ∧
    ExpandDynamicSpec.newBlock
      ⟨"b", 1, 4, .tupleV [] [], "b",
        [.lit (.unknown .string ["boop"]) 20], Body.mk [] [] 6⟩ iterX [] =
      (none, []) :=
  ⟨rfl, rfl⟩

/-- C6 amended: for every generated element whose label expression
evaluates to a marked KNOWN non-null value (convertible to string),
building the synthetic block fails with the error stating the value has
dynamic marks that make it unsuitable for use as a block label, and no
block is produced — the marks are never stripped to force the label
through.  (A marked null value takes the null error and a marked unknown
value is silently skipped instead.) -/
theorem markedKnownLabelError (ctx : Scope) (i : DynamicIteration)
    (bt : String) (btr dr : SrcRange) (fev : Value) (itn : String)
    (cb : Body) (e : Expr) (lv cv : Value)
    (he : e.value (i.evalContext ctx) = (lv, []))
    (hconv : convertToString lv = .ok cv)
    (hn : cv.isNull = false) (hk : cv.isKnown = true)
    (hm : cv.isMarked = true) :
    ExpandDynamicSpec.newBlock ⟨bt, btr, dr, fev, itn, [e], cb⟩ i ctx =
      (none, [⟨.error, "Invalid dynamic block label",
        "This value has dynamic marks that make it unsuitable for use as a block label.",
        some e.range⟩]) := by
  simp [ExpandDynamicSpec.newBlock, newBlockLabels, he, hconv, hn, hk, hm,
    Diagnostics.hasErrors]

/-- Witness for C6: a marked known string label value produces the
dynamic-marks error and no block. -/
theorem markedKnownLabelError_witness :
    ExpandDynamicSpec.newBlock
      ⟨"b", 1, 4, .tupleV [] [], "b", [.lit (.str "x" ["boop"]) 20],
        Body.mk [] [] 6⟩ iterX [] =
      (none, [⟨.error, "Invalid dynamic block label",
        "This value has dynamic marks that make it unsuitable for use as a block label.",
        some 20⟩]) :=
  markedKnownLabelError [] iterX "b" 1 4 (.tupleV [] []) "b"
    (Body.mk [] [] 6) (.lit (.str "x" ["boop"]) 20) (.str "x" ["boop"])
    (.str "x" ["boop"]) rfl rfl rfl rfl rfl

/-- C5 counterexample: an unknown label value of a type that does not
convert to string (here an unknown list of string) is rejected by the
string-conversion step, which precedes the unknown-label check — a
diagnostic IS added for this element, contradicting the claim that every
unknown label value is skipped with no diagnostic. -/
theorem unknownListLabelAddsDiagnostic :
    (Value.unknown (.list .string) []).isKnown = false ∧
    ExpandDynamicSpec.newBlock
      ⟨"b", 1, 4, .tupleV [] [], "b",
        [.lit (.unknown (.list .string) []) 20], Body.mk [] [] 6⟩ iterX [] =
      (none, [⟨.error, "Invalid dynamic block label",
        "Cannot use this value as a dynamic block label: string required.",
        some 20⟩]) :=
  ⟨rfl, rfl⟩

/-- C5 amended: (a) for every generated element whose label expression
evaluates without error to an unknown value whose type converts to string,
building the synthetic block silently skips that element — no block and no
diagnostic (an unknown value of a non-string-convertible type instead
fails the conversion step with a diagnostic); and (b) the remaining
elements of the same directive are still produced: a directive over a
three-element tuple whose second element is unknown yields exactly the
synthetic blocks for elements 0 and 2, with no diagnostics. -/
theorem unknownLabelSilentSkip (ctx : Scope) (i : DynamicIteration)
    (bt : String) (btr dr : SrcRange) (fev : Value) (itn : String)
    (cb : Body) (e : Expr) (rest : List Expr) (lv cv : Value)
    (he : e.value (i.evalContext ctx) = (lv, []))
    (hconv : convertToString lv = .ok cv)
    (hn : cv.isNull = false) (hk : cv.isKnown = false) :
    (ExpandDynamicSpec.newBlock ⟨bt, btr, dr, fev, itn, e :: rest, cb⟩ i ctx
      = (none, [])) ∧
    (∀ (schemas : String → BlockHeaderSchema) (t ln nm x y : String)
      (tr rv ri rl rls cbtr cbdr dr2 mirB : SrcRange)
      (lrs : List SrcRange) (cbody : Body),
      (schemas t).labelNames = [ln] →
      expandDynamicBlock ctx schemas (Block.mk "dynamic" tr [t] lrs
        (Body.mk
          [("for_each", .lit (.tupleV [.str x [], .unknown .string [],
              .str y []] []) rv),
           ("iterator", .traversal nm [] ri),
           ("labels", .exprList [.traversal nm ["value"] rl] rls)]
          [Block.mk "content" cbtr [] [] cbody cbdr] mirB) dr2) =
        ([⟨Block.mk (schemas t).btype (lrs.getD 0 dr2) [x] [rl] cbody dr2,
            some ⟨nm, .num 0 [], .str x [], []⟩, []⟩,
          ⟨Block.mk (schemas t).btype (lrs.getD 0 dr2) [y] [rl] cbody dr2,
            some ⟨nm, .num 2 [], .str y [], []⟩, []⟩], [])) := by
  constructor
  · simp [ExpandDynamicSpec.newBlock, newBlockLabels, he, hconv, hn, hk,
      Diagnostics.hasErrors]
  · intro schemas t ln nm x y tr rv ri rl rls cbtr cbdr dr2 mirB lrs cbody
      hbs
    simp [expandDynamicBlock, decodeDynamicSpec, dynContent,
      decodeDynamicSpecLabels, decodeDynamicSpecContent, exprListElems,
      absTraversalForExpr, Expr.value, Expr.range, lookupAttr, lookupVar,
      Value.getAttr, DynamicIteration.evalContext, collectGenerated,
      collectDiags, ExpandDynamicSpec.newBlock, newBlockLabels,
      convertToString,
      Value.iterateElements, Value.unmark, Value.marks, Value.setMarks,
      Value.withMarks, Value.isKnown, Value.isNull, Value.isMarked,
      Value.canIterateElements, Value.isDynamicType, Value.asString,
      CtyType.canIterate, CtyType.convertibleToString, Diagnostics.hasErrors,
      List.enum, List.enumFrom, hbs, Block.btype, Block.labels, Block.body,
      Block.labelRanges, Block.defRange, Body.attributes, Body.blocks,
      Body.missingItemRange]

/-- C7: for an ordinary block declaring both `count` and `for_each`
simultaneously, meta-argument decoding succeeds without any conflict
error: both attributes are decoded (countSet and forEachSet both recorded)
and each is individually validated — when both pass their individual
validation the diagnostics are empty, so in particular no diagnostic about
the combination is ever emitted; which of the two drives expansion is left
to the caller. -/
theorem bothCountAndForEachDecoded (ctx : Scope) (bt : String)
    (attrs : List (String × Expr)) (bs : List Block)
    (tr mir dr : SrcRange) (lbls : List String) (lrs : List SrcRange)
    (cv fv : Value) (rc rf : SrcRange)
    (hc : lookupAttr "count" attrs = some (.lit cv rc))
    (hf : lookupAttr "for_each" attrs = some (.lit fv rf))
    (hcv : cv.unmark.1.isKnown = false ∨
      (cv.unmark.1.isKnown = true ∧ cv.unmark.1.isNull = false ∧
        ∃ n m2, convertToNumber cv.unmark.1 = .ok (.num n m2) ∧ 0 ≤ n))
    (hfi : fv.canIterateElements = true ∨ fv.isDynamicType = true)
    (hfn : fv.isNull = false) :
    let raw := Block.mk bt tr lbls lrs (Body.mk attrs bs mir) dr
    let res := decodeMetaArgSpec ctx raw
    res.1.countSet = true ∧ res.1.forEachSet = true ∧ res.2 = [] := by
  have hfcase : (!fv.canIterateElements && !fv.isDynamicType) = false := by
    rcases hfi with h | h <;> simp [h]
  have htail : ∀ (spec : ExpandMetaArgSpec) (diags : Diagnostics),
      decodeMetaArgForEach ctx spec diags (some (.lit fv rf)) =
        ({ spec with forEachSet := true, forEachVal := fv }, diags) := by
    intro spec diags
    simp [decodeMetaArgForEach, Expr.value, hfcase, hfn]
  rcases hcv with hk | ⟨hk, hn, n, m2, hconv, hpos⟩
  · simp [decodeMetaArgSpec, hc, hf, Expr.value, Block.body,
      Body.attributes, hk, htail]
  · have hneg : ¬ (n < 0) := not_lt.mpr hpos
    simp [decodeMetaArgSpec, hc, hf, Expr.value, Block.body,
      Body.attributes, hk, hn, hconv, hneg, htail]

/-- Witness for C7: a block with `count = 2` and `for_each = ["a"]` decodes
with both attributes recorded and no diagnostics. -/
theorem bothCountAndForEachDecoded_witness :
    (decodeMetaArgSpec [] (mkMetaBlock
      [("count", .lit (.num 2 []) 2),
       ("for_each", .lit (.listV .string [.str "a" []] []) 5)])).1.countSet
      = true ∧
    (decodeMetaArgSpec [] (mkMetaBlock
      [("count", .lit (.num 2 []) 2),
       ("for_each", .lit (.listV .string [.str "a" []] []) 5)])).1.forEachSet
      = true ∧
    (decodeMetaArgSpec [] (mkMetaBlock
      [("count", .lit (.num 2 []) 2),
       ("for_each", .lit (.listV .string [.str "a" []] []) 5)])).2 = [] :=
  bothCountAndForEachDecoded [] "resource"
    [("count", .lit (.num 2 []) 2),
     ("for_each", .lit (.listV .string [.str "a" []] []) 5)] [] 0 3 4
    ["r", "n"] [1, 2] (.num 2 []) (.listV .string [.str "a" []] []) 2 5
    rfl rfl (Or.inr ⟨rfl, rfl, 2, [], rfl, by decide⟩) (Or.inl rfl) rfl

/-- A successful content stage returns a spec carrying the iterator name it
was handed. -/
theorem decodeDynamicSpecContent_iterName (blockS : BlockHeaderSchema)
    (rawSpec : Block) (sc : DynBodyContent) (v : Value) (diags : Diagnostics)
    (itn : String) (les : List Expr) (s : ExpandDynamicSpec)
    (h : (decodeDynamicSpecContent blockS rawSpec sc v diags itn les).1
      = some s) : s.iteratorName = itn := by
  revert h
  unfold decodeDynamicSpecContent
  split
  · intro h; simp at h
  · intro h
    simp at h
    rw [← h]
  · intro h; simp at h

/-- A successful labels stage returns a spec carrying the iterator name it
was handed. -/
theorem decodeDynamicSpecLabels_iterName (blockS : BlockHeaderSchema)
    (rawSpec : Block) (sc : DynBodyContent) (v : Value) (diags : Diagnostics)
    (itn : String) (s : ExpandDynamicSpec)
    (h : (decodeDynamicSpecLabels blockS rawSpec sc v diags itn).1
      = some s) : s.iteratorName = itn := by
  revert h
  unfold decodeDynamicSpecLabels
  split
  next la =>
    split
    · intro h; simp at h
    · split
      · intro h; simp at h
      · split
        · intro h; simp at h
        · exact decodeDynamicSpecContent_iterName _ _ _ _ _ _ _ _
  next =>
    exact decodeDynamicSpecContent_iterName _ _ _ _ _ _ _ _

/-- C8: for every dynamic block directive whose target schema requires
labels and whose `for_each` decodes cleanly, the `labels` attribute check
fails exactly on a count mismatch: too many label expressions yields the
"Extraneous dynamic block label" error whose detail names the exact
required count and whose subject is the first extraneous label expression;
too few yields the "Insufficient dynamic block labels" error naming the
exact required count; an exact match produces no label-count error.  An
absent `iterator` attribute defaults the iterator name of a successfully
decoded spec to the target block type, while a present `iterator` that is
not a single bare identifier (a multi-step traversal, or not a traversal
at all) is a decode error. -/
theorem dynamicLabelsAndIteratorDecoding (ctx : Scope)
    (blockS : BlockHeaderSchema) (attrs : List (String × Expr))
    (bs : List Block) (tr mir dr : SrcRange) (lbls : List String)
    (lrs : List SrcRange) (v : Value) (rfe : SrcRange)
    (hfe : lookupAttr "for_each" attrs = some (.lit v rfe))
    (hv1 : v.unmark.1.canIterateElements = true)
    (hv2 : v.unmark.1.isNull = false)
    (hL : (blockS.labelNames.length != 0) = true) :
    let raw := Block.mk "dynamic" tr lbls lrs (Body.mk attrs bs mir) dr
    let res := decodeDynamicSpec ctx blockS raw
    let labelDetail := "Blocks of type \"" ++ blockS.btype ++ "\" require "
      ++ toString blockS.labelNames.length ++ " label(s)."
    (∀ es rls, lookupAttr "labels" attrs = some (.exprList es rls) →
      lookupAttr "iterator" attrs = none →
      es.length > blockS.labelNames.length →
      res = (none, [⟨.error, "Extraneous dynamic block label", labelDetail,
        some ((es.getD blockS.labelNames.length (.exprList es rls)).range)⟩]))
    ∧
    (∀ es rls, lookupAttr "labels" attrs = some (.exprList es rls) →
      lookupAttr "iterator" attrs = none →
      es.length < blockS.labelNames.length →
      res = (none, [⟨.error, "Insufficient dynamic block labels",
        labelDetail, some rls⟩])) ∧
    (∀ es rls, lookupAttr "labels" attrs = some (.exprList es rls) →
      lookupAttr "iterator" attrs = none →
      es.length = blockS.labelNames.length →
      res.2.all (fun d => d.summary != "Extraneous dynamic block label" &&
        d.summary != "Insufficient dynamic block labels") = true) ∧
    (lookupAttr "iterator" attrs = none → ∀ s ds, res = (some s, ds) →
      s.iteratorName = blockS.btype) ∧
    (∀ root path ri,
      lookupAttr "iterator" attrs = some (.traversal root path ri) →
      path ≠ [] →
      res = (none, [⟨.error, "Invalid dynamic iterator name",
        "Dynamic iterator must be a single variable name.", some ri⟩])) ∧
    (∀ w ri, lookupAttr "iterator" attrs = some (.lit w ri) →
      res = (none, [⟨.error, "Invalid expression",
        "A single static variable reference is required.", some ri⟩])) := by
  refine ⟨?_, ?_, ?_, ?_, ?_, ?_⟩
  · intro es rls hla hit hgt
    simp [decodeDynamicSpec, dynContent, decodeDynamicSpecLabels,
      exprListElems, hfe, hla, hit, hv1, hv2, hL, hgt, Expr.value,
      Expr.range, Diagnostics.hasErrors, Block.body, Body.attributes,
      Body.blocks, Body.missingItemRange]
  · intro es rls hla hit hlt
    have hngt : ¬ (es.length > blockS.labelNames.length) := by omega
    simp [decodeDynamicSpec, dynContent, decodeDynamicSpecLabels,
      exprListElems, hfe, hla, hit, hv1, hv2, hL, hlt, hngt, Expr.value,
      Expr.range, Diagnostics.hasErrors, Block.body, Body.attributes,
      Body.blocks, Body.missingItemRange]
  · intro es rls hla hit heq
    have hred : decodeDynamicSpec ctx blockS (Block.mk "dynamic" tr lbls lrs
        (Body.mk attrs bs mir) dr) = decodeDynamicSpecContent blockS
        (Block.mk "dynamic" tr lbls lrs (Body.mk attrs bs mir) dr)
        ⟨some (.lit v rfe), none, some (.exprList es rls),
          bs.filter (fun bl => bl.btype == "content"), mir⟩ v []
        blockS.btype es := by
      simp [decodeDynamicSpec, dynContent, decodeDynamicSpecLabels,
        exprListElems, hfe, hla, hit, hv1, hv2, hL, heq, Expr.value,
        Diagnostics.hasErrors, Block.body, Body.attributes, Body.blocks,
        Body.missingItemRange]
    rw [hred]
    simp only [List.all_eq_true]
    intro d hd
    rcases decodeDynamicSpecContent_diags _ _ _ _ _ _ _ d hd with h | h
    · simp at h
    · rcases h with h | h <;> simp [h]
  · intro hit s ds hres
    have hred : decodeDynamicSpec ctx blockS (Block.mk "dynamic" tr lbls lrs
        (Body.mk attrs bs mir) dr) = decodeDynamicSpecLabels blockS
        (Block.mk "dynamic" tr lbls lrs (Body.mk attrs bs mir) dr)
        ⟨some (.lit v rfe), none,
          if (blockS.labelNames.length != 0) = true then
            lookupAttr "labels" attrs else none,
          bs.filter (fun bl => bl.btype == "content"), mir⟩ v []
        blockS.btype := by
      simp [decodeDynamicSpec, dynContent, hfe, hit, hv1, hv2, Expr.value,
        Diagnostics.hasErrors, Block.body, Body.attributes, Body.blocks,
        Body.missingItemRange]
    rw [hred] at hres
    exact decodeDynamicSpecLabels_iterName _ _ _ _ _ _ _
      (by rw [hres])
  · intro root path ri hit hp
    have hp2 : ((root :: path).length != 1) = true := by
      cases path with
      | nil => exact absurd rfl hp
      | cons a as => simp
    simp [decodeDynamicSpec, dynContent, hfe, hit, hv1, hv2, hp2, hp,
      absTraversalForExpr, Expr.value, Expr.range, Diagnostics.hasErrors,
      Block.body, Body.attributes, Body.blocks, Body.missingItemRange]
  · intro w ri hit
    simp [decodeDynamicSpec, dynContent, hfe, hit, hv1, hv2,
      absTraversalForExpr, Expr.value, Expr.range, Diagnostics.hasErrors,
      Block.body, Body.attributes, Body.blocks, Body.missingItemRange]

/-- Witness for C8: a schema requiring one label rejects two label
expressions with the "Extraneous dynamic block label" error naming the
required count and pointing at the second (first extraneous) expression. -/
theorem dynamicLabelsAndIteratorDecoding_witness :
    decodeDynamicSpec [] ⟨"b", ["name"]⟩ (mkDynBlock
      [("for_each", .lit (.tupleV [] []) 2),
       ("labels", .exprList [.lit (.str "x" []) 11, .lit (.str "y" []) 12]
         13)] [contentBlk]) =
      (none, [⟨.error, "Extraneous dynamic block label",
        "Blocks of type \"b\" require 1 label(s).", some 12⟩]) := by
  have h := dynamicLabelsAndIteratorDecoding [] ⟨"b", ["name"]⟩
    [("for_each", .lit (.tupleV [] []) 2),
     ("labels", .exprList [.lit (.str "x" []) 11, .lit (.str "y" []) 12] 13)]
    [contentBlk] 0 3 4 ["b"] [1] (.tupleV [] []) 2 rfl rfl rfl rfl
  obtain ⟨h1, -, -, -, -, -⟩ := h
  exact h1 [.lit (.str "x" []) 11, .lit (.str "y" []) 12] 13 rfl rfl
    (by decide)

/-- Collecting a run of elements whose block construction all succeeded
with the same block and no diagnostics yields one expanded block per
element, in iteration order. -/
theorem collectGenerated_const (itn : String) (b : Block)
    (pairs : List (Value × Value)) :
    collectGenerated (pairs.map (fun kv =>
      ((⟨itn, kv.1, kv.2, []⟩ : DynamicIteration),
        ((some b, []) : Option Block × Diagnostics)))) =
      pairs.map (fun kv =>
        (⟨b, some ⟨itn, kv.1, kv.2, []⟩, []⟩ : ExpandedBlock)) := by
  induction pairs with
  | nil => rfl
  | cons kv rest ih => simpa [collectGenerated] using ih

/-- Collecting a run of elements whose block construction produced no
diagnostics yields no diagnostics. -/
theorem collectDiags_const (itn : String) (b : Block)
    (pairs : List (Value × Value)) :
    collectDiags (pairs.map (fun kv =>
      ((⟨itn, kv.1, kv.2, []⟩ : DynamicIteration),
        ((some b, []) : Option Block × Diagnostics)))) = [] := by
  induction pairs with
  | nil => rfl
  | cons kv rest ih => simpa [collectDiags] using ih

/-- C2: expansion returns literal blocks and dynamic-generated blocks
interleaved in source declaration order, with one directive's generated
run in collection-iteration order between the surrounding literal blocks;
a `for_each` over a list of N (arbitrary) elements produces exactly N
synthetic blocks, the i-th carrying an iteration whose key is the
zero-based index i and whose value is the i-th element; a `for_each` over
a map produces one block per entry with the map key as iteration key.
(The Expander itself is modelled from the spec; the directive decoding and
block construction it invokes are embedded from the source.) -/
theorem expandOrderAndCardinality (ctx : Scope)
    (schemas : String → BlockHeaderSchema) (t : String)
    (battrs : List (String × Expr)) (bmir : SrcRange)
    (lit1 lit2 : Block) (ty : CtyType) (vs : List Value)
    (entries : List (String × Value))
    (tr rv cbtr cbdr dr2 mirB : SrcRange) (lrs : List SrcRange)
    (cbody : Body)
    (h1 : (lit1.btype != "dynamic") = true)
    (h2 : (lit2.btype != "dynamic") = true)
    (hbs : (schemas t).labelNames = []) :
    let dynList := Block.mk "dynamic" tr [t] lrs (Body.mk
      [("for_each", .lit (.listV ty vs []) rv)]
      [Block.mk "content" cbtr [] [] cbody cbdr] mirB) dr2
    let dynMap := Block.mk "dynamic" tr [t] lrs (Body.mk
      [("for_each", .lit (.mapV ty entries []) rv)]
      [Block.mk "content" cbtr [] [] cbody cbdr] mirB) dr2
    let genBlock := Block.mk (schemas t).btype (lrs.getD 0 dr2) [] [] cbody
      dr2
    (expandBody ctx schemas (Body.mk battrs [lit1, dynList, lit2] bmir) =
      (⟨lit1, none, []⟩ :: (vs.enum.map (fun p =>
        (⟨genBlock, some ⟨(schemas t).btype, .num p.1 [], p.2, []⟩, []⟩ :
          ExpandedBlock))) ++ [⟨lit2, none, []⟩], [])) ∧
    ((expandDynamicBlock ctx schemas dynList).1.length = vs.length) ∧
    (expandDynamicBlock ctx schemas dynMap =
      (entries.map (fun q => ⟨genBlock,
        some ⟨(schemas t).btype, .str q.1 [], q.2, []⟩, []⟩), [])) := by
  have hdynList : expandDynamicBlock ctx schemas (Block.mk "dynamic" tr [t]
      lrs (Body.mk [("for_each", .lit (.listV ty vs []) rv)]
      [Block.mk "content" cbtr [] [] cbody cbdr] mirB) dr2) =
      (vs.enum.map (fun p =>
        (⟨Block.mk (schemas t).btype (lrs.getD 0 dr2) [] [] cbody dr2,
          some ⟨(schemas t).btype, .num p.1 [], p.2, []⟩, []⟩ :
          ExpandedBlock)), []) := by
    have hcg := collectGenerated_const (schemas t).btype
      (Block.mk (schemas t).btype (lrs[0]?.getD dr2) [] [] cbody dr2)
      ((Value.listV ty vs []).iterateElements)
    have hcd := collectDiags_const (schemas t).btype
      (Block.mk (schemas t).btype (lrs[0]?.getD dr2) [] [] cbody dr2)
      ((Value.listV ty vs []).iterateElements)
    simp [expandDynamicBlock, decodeDynamicSpec, dynContent,
      decodeDynamicSpecLabels, decodeDynamicSpecContent, lookupAttr,
      Expr.value, Diagnostics.hasErrors, Block.btype, Block.labels,
      Block.body, Block.labelRanges, Block.defRange, Body.attributes,
      Body.blocks, Body.missingItemRange, hbs, Value.unmark, Value.marks,
      Value.setMarks, Value.isKnown, Value.canIterateElements,
      Value.isDynamicType, Value.isNull, ExpandDynamicSpec.newBlock,
      newBlockLabels, hcg, hcd]
    simp [Value.iterateElements, List.map_map, Function.comp]
  have hdynMap : expandDynamicBlock ctx schemas (Block.mk "dynamic" tr [t]
      lrs (Body.mk [("for_each", .lit (.mapV ty entries []) rv)]
      [Block.mk "content" cbtr [] [] cbody cbdr] mirB) dr2) =
      (entries.map (fun q =>
        (⟨Block.mk (schemas t).btype (lrs.getD 0 dr2) [] [] cbody dr2,
          some ⟨(schemas t).btype, .str q.1 [], q.2, []⟩, []⟩ :
          ExpandedBlock)), []) := by
    have hcg := collectGenerated_const (schemas t).btype
      (Block.mk (schemas t).btype (lrs[0]?.getD dr2) [] [] cbody dr2)
      ((Value.mapV ty entries []).iterateElements)
    have hcd := collectDiags_const (schemas t).btype
      (Block.mk (schemas t).btype (lrs[0]?.getD dr2) [] [] cbody dr2)
      ((Value.mapV ty entries []).iterateElements)
    simp [expandDynamicBlock, decodeDynamicSpec, dynContent,
      decodeDynamicSpecLabels, decodeDynamicSpecContent, lookupAttr,
      Expr.value, Diagnostics.hasErrors, Block.btype, Block.labels,
      Block.body, Block.labelRanges, Block.defRange, Body.attributes,
      Body.blocks, Body.missingItemRange, hbs, Value.unmark, Value.marks,
      Value.setMarks, Value.isKnown, Value.canIterateElements,
      Value.isDynamicType, Value.isNull, ExpandDynamicSpec.newBlock,
      newBlockLabels, hcg, hcd]
    simp [Value.iterateElements, List.map_map, Function.comp]
  refine ⟨?_, ?_, ?_⟩
  · have hl1 : expandDynamicBlock ctx schemas lit1 = ([⟨lit1, none, []⟩], [])
        := by
      simp [expandDynamicBlock, h1]
    have hl2 : expandDynamicBlock ctx schemas lit2 = ([⟨lit2, none, []⟩], [])
        := by
      simp [expandDynamicBlock, h2]
    simp [expandBody, Body.blocks, hl1, hl2, hdynList]
  · rw [hdynList]
    simp
  · exact hdynMap

/-- Witness for C2: a body with a literal block, a directive generating two
blocks, and another literal block expands to the four blocks in source
order with iteration keys 0 and 1 bound to the list elements. -/
theorem expandOrderAndCardinality_witness :
    expandBody [] (fun _ => ⟨"a", []⟩) (Body.mk [] [
      Block.mk "a" 50 [] [] (Body.mk [] [] 51) 52,
      Block.mk "dynamic" 30 ["a"] [31] (Body.mk
        [("for_each", .lit (.listV .string
          [.str "dynamic a 0" [], .str "dynamic a 1" []] []) 32)]
        [Block.mk "content" 36 [] [] (Body.mk [] [] 37) 38] 39) 40,
      Block.mk "a" 53 [] [] (Body.mk [] [] 54) 55] 56) =
      ([⟨Block.mk "a" 50 [] [] (Body.mk [] [] 51) 52, none, []⟩,
        ⟨Block.mk "a" 31 [] [] (Body.mk [] [] 37) 40,
          some ⟨"a", .num 0 [], .str "dynamic a 0" [], []⟩, []⟩,
        ⟨Block.mk "a" 31 [] [] (Body.mk [] [] 37) 40,
          some ⟨"a", .num 1 [], .str "dynamic a 1" [], []⟩, []⟩,
        ⟨Block.mk "a" 53 [] [] (Body.mk [] [] 54) 55, none, []⟩], []) := by
  have h := expandOrderAndCardinality [] (fun _ => ⟨"a", []⟩) "a" [] 56
    (Block.mk "a" 50 [] [] (Body.mk [] [] 51) 52)
    (Block.mk "a" 53 [] [] (Body.mk [] [] 54) 55) .string
    [.str "dynamic a 0" [], .str "dynamic a 1" []] [] 30 32 36 38 40 39
    [31] (Body.mk [] [] 37) rfl rfl rfl
  exact h.1

/-- C1: a dynamic directive whose `for_each` value carries marks produces
(despite the deferred iteration) at least one synthetic block — exactly one
best-effort placeholder — and decoding its content yields values all marked
with the same tags: a literal content field keeps its value with the
`for_each` marks applied, and a field depending on the (then-unknown)
iterator value resolves to unknown-of-expected-type, marked, with no decode
error and without omitting the block.  (The Expander and the hcldec-style
content decoding are modelled from the spec; directive decoding and block
construction are embedded from the source.) -/
theorem expandMarkedForEachPropagatesMarks (ctx : Scope)
    (schemas : String → BlockHeaderSchema) (t nm : String) (v w w2 : Value)
    (ty0 ty1 : CtyType) (battrs : List (String × Expr))
    (bmir tr rv ri r0 r1 cbtr cbdr dr2 mirB mirC : SrcRange)
    (lrs : List SrcRange)
    (hne : v.marks ≠ [])
    (hv1 : v.unmark.1.canIterateElements = true)
    (hv2 : v.unmark.1.isNull = false)
    (hbs : (schemas t).labelNames = [])
    (hconv : convertToType w ty0 = .ok w2) :
    let cbody := Body.mk [("val0", .lit w r0),
      ("val1", .traversal nm ["value"] r1)] [] mirC
    let raw := Block.mk "dynamic" tr [t] lrs (Body.mk
      [("for_each", .lit v rv), ("iterator", .traversal nm [] ri)]
      [Block.mk "content" cbtr [] [] cbody cbdr] mirB) dr2
    let eb : ExpandedBlock := ⟨Block.mk (schemas t).btype (lrs.getD 0 dr2)
      [] [] cbody dr2, some ⟨nm, dynamicVal, dynamicVal, []⟩, v.marks⟩
    (expandBody ctx schemas (Body.mk battrs [raw] bmir) = ([eb], [])) ∧
    (decodeContentAttrs ctx eb [("val0", ty0), ("val1", ty1)] =
      ([("val0", w2.withMarks v.marks),
        ("val1", (Value.unknown ty1 []).withMarks v.marks)], [])) ∧
    (∀ p ∈ (decodeContentAttrs ctx eb [("val0", ty0), ("val1", ty1)]).1,
      ∀ tag ∈ v.marks, tag ∈ p.2.marks) := by
  have hem : v.marks.isEmpty = false := by
    cases hm : v.marks with
    | nil => exact absurd hm hne
    | cons a as => rfl
  have hv1' : (v.setMarks []).canIterateElements = true := hv1
  have hv2' : (v.setMarks []).isNull = false := hv2
  refine ⟨?_, ?_, ?_⟩
  · simp [expandBody, expandDynamicBlock, decodeDynamicSpec, dynContent,
      decodeDynamicSpecLabels, decodeDynamicSpecContent, lookupAttr,
      absTraversalForExpr, Expr.value, Diagnostics.hasErrors, Block.btype,
      Block.labels, Block.body, Block.labelRanges, Block.defRange,
      Body.attributes, Body.blocks, Body.missingItemRange, hbs, hv1, hv2,
      hv1', hv2', hne, hem, Value.unmark, ExpandDynamicSpec.newBlock,
      newBlockLabels]
  · have hval1 : ∀ m0, convertToType (Value.unknown .dynamicPseudo m0) ty1
        = .ok (Value.unknown ty1 m0) := by
      intro m0
      cases ty1 <;> simp [convertToType, convertToString, convertToNumber,
        CtyType.convertibleToString]
    simp [decodeContentAttrs, lookupAttr, Expr.value, lookupVar,
      Value.getAttr, DynamicIteration.evalContext, dynamicVal, hconv,
      hval1, Body.attributes, Block.body, Value.withMarks, Value.marks,
      Value.setMarks]
  · have hval1 : ∀ m0, convertToType (Value.unknown .dynamicPseudo m0) ty1
        = .ok (Value.unknown ty1 m0) := by
      intro m0
      cases ty1 <;> simp [convertToType, convertToString, convertToNumber,
        CtyType.convertibleToString]
    intro p hp tag htag
    have hwm : (Value.unknown CtyType.dynamicPseudo []).withMarks [] =
        Value.unknown .dynamicPseudo [] := rfl
    simp [decodeContentAttrs, lookupAttr, Expr.value, lookupVar,
      Value.getAttr, DynamicIteration.evalContext, dynamicVal, hconv,
      hval1, hwm, Body.attributes, Block.body] at hp
    have hmem : ∀ (x : Value) (m : List String), tag ∈ m →
        tag ∈ (x.withMarks m).marks := by
      intro x m hm
      cases x <;> simp [Value.withMarks, Value.setMarks, Value.marks, hm]
    rcases hp with hp | hp <;> rw [hp] <;> dsimp only <;>
      exact hmem _ _ htag

/-- Witness for C1, mirroring the package test: a tuple `["hey"]` marked
"boop" yields one synthetic block whose decoded content is the literal
string still present and the iterator-dependent field unknown-of-string,
with everything marked "boop". -/
theorem expandMarkedForEachPropagatesMarks_witness :
    expandBody [] (fun _ => ⟨"b", []⟩) (Body.mk [] [Block.mk "dynamic" 30
      ["b"] [31] (Body.mk
        [("for_each", .lit (.tupleV [.str "hey" []] ["boop"]) 32),
         ("iterator", .traversal "dyn_b" [] 33)]
        [Block.mk "content" 36 [] [] (Body.mk
          [("val0", .lit (.str "static c 1" []) 41),
           ("val1", .traversal "dyn_b" ["value"] 42)] [] 37) 38] 39) 40]
      56) =
      ([⟨Block.mk "b" 31 [] [] (Body.mk
          [("val0", .lit (.str "static c 1" []) 41),
           ("val1", .traversal "dyn_b" ["value"] 42)] [] 37) 40,
        some ⟨"dyn_b", dynamicVal, dynamicVal, []⟩, ["boop"]⟩], []) ∧
    decodeContentAttrs [] ⟨Block.mk "b" 31 [] [] (Body.mk
        [("val0", .lit (.str "static c 1" []) 41),
         ("val1", .traversal "dyn_b" ["value"] 42)] [] 37) 40,
        some ⟨"dyn_b", dynamicVal, dynamicVal, []⟩, ["boop"]⟩
      [("val0", .string), ("val1", .string)] =
      ([("val0", .str "static c 1" ["boop"]),
        ("val1", .unknown .string ["boop"])], []) := by
  have h := expandMarkedForEachPropagatesMarks [] (fun _ => ⟨"b", []⟩) "b"
    "dyn_b" (.tupleV [.str "hey" []] ["boop"]) (.str "static c 1" [])
    (.str "static c 1" []) .string .string [] 56 30 32 33 41 42 36 38 40
    39 37 [31] (by decide) rfl rfl rfl rfl
  exact ⟨h.1, h.2.1⟩

/-- Witness for C5: an unknown string label value is skipped silently, at a
concrete spec and iteration. -/
theorem unknownLabelSilentSkip_witness :
    ExpandDynamicSpec.newBlock
      ⟨"b", 1, 4, .tupleV [] [], "b", [.lit (.unknown .string []) 20],
        Body.mk [] [] 6⟩ iterX [] = (none, []) :=
  (unknownLabelSilentSkip [] iterX "b" 1 4 (.tupleV [] []) "b"
    (Body.mk [] [] 6) (.lit (.unknown .string []) 20) []
    (.unknown .string []) (.unknown .string []) rfl rfl rfl rfl).1

end Tfhcl
